import Mathlib

set_option linter.unusedVariables false

/-!
Verification development for the two core engines of the repository:
the duplicate-detection / insert engine (src/modules/escritura.py) and the
rule-driven validation engine (src/modules/validacion.py).

The Python code is shallowly embedded: DataFrames become lists of records,
the relational store becomes an explicit value threaded through the insert
engine, and the db_manager calls are recorded in an operation log.
-/

/-- Python str.strip on the character list: whitespace dropped from both ends
(escritura.py line 57/61: .str.strip(); validacion.py line 86: str(value).strip()). -/
def stripL (l : List Char) : List Char :=
  ((l.dropWhile Char.isWhitespace).reverse.dropWhile Char.isWhitespace).reverse

/-- Python / pandas str.strip on strings. -/
def pyStrip (s : String) : String :=
  String.mk (stripL s.data)

/-- A raw batch row as consumed by insert_new_records: the upstream contract
(title, created_at, external_link, entity), with external_link possibly null.
created_at and title are already the stringified values (astype(str) is the
identity on them). -/
structure RawRecord where
  entity : String
  title : String
  created_at : String
  external_link : Option String
deriving DecidableEq, Repr

/-- A batch row after the normalisation of escritura.py lines 59-61:
title stripped, created_at stringified, external_link with NaN filled by "". -/
structure NRecord where
  entity : String
  title : String
  created_at : String
  external_link : String
deriving DecidableEq, Repr

/-- A row of the regulations table (the columns the engine touches). -/
structure TableRow where
  title : String
  created_at : String
  entity : String
  external_link : Option String
deriving DecidableEq, Repr

/-- A row as returned by the SELECT of escritura.py lines 29-33, where
COALESCE(external_link, Empty) has already been applied. -/
structure ExistingRow where
  title : String
  created_at : String
  entity : String
  external_link : String
deriving DecidableEq, Repr

/-- A db_manager operation, recorded in the order it is issued. -/
inductive StoreOp where
  | query
  | bulkInsert
deriving DecidableEq, Repr

/-- The relational store: the regulations rows with their ids, the
regulations_component rows, and the next id the store will assign. -/
structure Store where
  rows : List (Nat × TableRow)
  components : List (Nat × Nat)
  nextId : Nat
deriving DecidableEq, Repr

/-- Normalisation of a batch row (escritura.py lines 59-61). -/
def normalizeRaw (r : RawRecord) : NRecord :=
  ⟨r.entity, pyStrip r.title, r.created_at, (r.external_link).getD ""⟩

/-- Normalisation of a queried db row (escritura.py lines 55-57): astype(str)
and fillna are identities on the COALESCEd strings, title is stripped. -/
def normalizeDB (r : ExistingRow) : ExistingRow :=
  { r with title := pyStrip r.title }

/-- The unique_key of escritura.py lines 73-83. -/
def uniqueKey (title created_at external_link : String) : String :=
  title ++ "|" ++ created_at ++ "|" ++ external_link

/-- unique_key of a normalised batch row. -/
def keyN (r : NRecord) : String := uniqueKey r.title r.created_at r.external_link

/-- unique_key of a normalised db row. -/
def keyDB (r : ExistingRow) : String := uniqueKey r.title r.created_at r.external_link

/-- Projection performed by the SELECT of lines 29-33 (COALESCE on the link). -/
def projQ (t : TableRow) : ExistingRow :=
  ⟨t.title, t.created_at, t.entity, t.external_link.getD ""⟩

/-- The SELECT of escritura.py lines 29-35: all rows of the entity, projected. -/
def queryExisting (store : Store) (entity : String) : List ExistingRow :=
  (store.rows.filter (fun p => p.2.entity == entity)).map (fun p => projQ p.2)

/-- The table row written for a new record. -/
def regRow (n : NRecord) : TableRow := ⟨n.title, n.created_at, n.entity, some n.external_link⟩

/-- Sequential id assignment performed by the store on a bulk insert. -/
def assignIds : Nat → List NRecord → List (Nat × TableRow)
  | _, [] => []
  | n, x :: xs => (n, regRow x) :: assignIds (n + 1) xs

/-- db_manager.bulk_insert into the regulations table (escritura.py line 129). -/
def bulkInsertRows (store : Store) (recs : List NRecord) : Store :=
  { store with rows := store.rows ++ assignIds store.nextId recs,
               nextId := store.nextId + recs.length }

/-- The id read-back of escritura.py lines 149-160: the last `total` ids
assigned to the entity, in descending order. -/
def readBackIds (store : Store) (entity : String) (total : Nat) : List Nat :=
  (((store.rows.filter (fun p => p.2.entity == entity)).map Prod.fst).reverse).take total

/-- insert_regulations_component of escritura.py lines 3-18: links each new id
to the fixed component id 7. -/
def insert_regulations_component (store : Store) (new_ids : List Nat) : Store × Nat × String :=
  if new_ids.isEmpty then (store, 0, "No new regulation IDs provided")
  else ({ store with components := store.components ++ new_ids.map (fun i => (i, 7)) },
        new_ids.length,
        "Successfully inserted " ++ toString new_ids.length ++ " regulation components")

/-- The three normalised identity fields of a record (the subset of
drop_duplicates, escritura.py line 103). -/
def trip (r : NRecord) : String × String × String := (r.title, r.created_at, r.external_link)

/-- drop_duplicates(subset, keep=first): keep the first occurrence of each
(title, created_at, external_link) triple, in input order. -/
def dropDupAux : List NRecord → List (String × String × String) → List NRecord
  | [], _ => []
  | r :: rs, seen =>
    if trip r ∈ seen then dropDupAux rs seen else r :: dropDupAux rs (trip r :: seen)

/-- escritura.py lines 102-105. -/
def dropDuplicatesFirst (l : List NRecord) : List NRecord := dropDupAux l []

/-- escritura.py lines 66-90: if no existing rows, everything is new;
otherwise flag rows whose unique_key is among the existing keys, keep the
rest, and count the flagged ones. Returns (new_records, duplicates_found). -/
def classifyDuplicates (db_norm : List ExistingRow) (edf : List NRecord) : List NRecord × Nat :=
  if db_norm.isEmpty then (edf, 0)
  else
    let existing_keys := db_norm.map keyDB
    let news := edf.filter (fun r => !(existing_keys.contains (keyN r)))
    (news, edf.length - news.length)

/-- The set of unique_keys the engine computes for the existing rows of an
entity (lines 55-57 and 79-86). -/
def existingKeysFor (store : Store) (entity : String) : List String :=
  ((queryExisting store entity).map normalizeDB).map keyDB

/-- The observable outcome of insert_new_records: the returned count and
message, the store after the call, the two duplicate counts the engine
computes, and the db_manager operations issued. -/
structure InsertResult where
  inserted : Nat
  message : String
  store : Store
  duplicatesFound : Nat
  internalDuplicates : Nat
  ops : List StoreOp
deriving DecidableEq, Repr

/-- The statistics message of escritura.py lines 178-185. -/
def finalMessage (entity : String) (processed existingCount dups total : Nat)
    (comp : String) : String :=
  "Entity " ++ entity ++ ": " ++ "Processed: " ++ toString processed ++ " | Existing: " ++
    toString existingCount ++ " | Duplicates skipped: " ++ toString dups ++
    " | New inserted: " ++ toString total ++ ". " ++ comp

/-- escritura.py line 45: the rows of the batch belonging to the entity. -/
def entityDf (df : List RawRecord) (entity : String) : List RawRecord :=
  df.filter (fun r => r.entity == entity)

/-- escritura.py lines 59-61: the entity rows, normalised. -/
def edfOf (df : List RawRecord) (entity : String) : List NRecord :=
  (entityDf df entity).map normalizeRaw

/-- escritura.py lines 54-90: normalise the queried rows and classify the
batch against them. -/
def clsOf (store : Store) (df : List RawRecord) (entity : String) : List NRecord × Nat :=
  classifyDuplicates ((queryExisting store entity).map normalizeDB) (edfOf df entity)

/-- escritura.py lines 100-105: the records left after internal dedup. -/
def newRecordsOf (store : Store) (df : List RawRecord) (entity : String) : List NRecord :=
  dropDuplicatesFirst (clsOf store df entity).1

/-- escritura.py line 106: internal_duplicates. -/
def internalOf (store : Store) (df : List RawRecord) (entity : String) : Nat :=
  (edfOf df entity).length - (clsOf store df entity).2 - (newRecordsOf store df entity).length

/-- insert_new_records of escritura.py lines 20-199, over the explicit store,
assembled from the staged definitions above. -/
def insert_new_records (store : Store) (df : List RawRecord) (entity : String) : InsertResult :=
  if (entityDf df entity).isEmpty then
    ⟨0, "No records found for entity " ++ entity, store, 0, 0, [StoreOp.query]⟩
  else if (newRecordsOf store df entity).isEmpty then
    ⟨0, "No new records found for entity " ++ entity ++ " after duplicate validation",
     store, (clsOf store df entity).2, internalOf store df entity, [StoreOp.query]⟩
  else
    let new_records := newRecordsOf store df entity
    let store1 := bulkInsertRows store new_records
    let total := new_records.length
    let new_ids := readBackIds store1 entity total
    let comp := insert_regulations_component store1 new_ids
    ⟨total,
     finalMessage entity (edfOf df entity).length (queryExisting store entity).length
       ((clsOf store df entity).2 + internalOf store df entity) total comp.2.2,
     comp.1, (clsOf store df entity).2, internalOf store df entity,
     [StoreOp.query, StoreOp.bulkInsert, StoreOp.query] ++
       (if new_ids.isEmpty then [] else [StoreOp.bulkInsert])⟩

/-- A scalar cell of the validation engine: null (None or NaN), an integer,
a string, or an already-parsed date. The float branch of validacion.py is not
exercised by any claim and is not modelled. -/
inductive Value where
  | vNull
  | vInt (n : Int)
  | vStr (s : String)
  | vDate (y m d : Nat)
deriving DecidableEq, Repr

/-- The declared type of a field rule (validacion.py VALID_TYPES, float
omitted as unexercised). -/
inductive FieldType where
  | int
  | date
  | str
deriving DecidableEq, Repr

/-- The regex fragment the rules use, with Python re.match semantics: bol is
the start anchor, matching succeeds when some prefix of the subject matches
starting at position 0. -/
inductive Regex where
  | fail
  | eps
  | char (c : Char)
  | seq (r1 r2 : Regex)
  | alt (r1 r2 : Regex)
  | bol
deriving DecidableEq, Repr

/-- All ways a regex can consume an initial segment of the subject: each
outcome records whether we are still at position 0 and the remaining suffix. -/
def runs : Regex → Bool → List Char → List (Bool × List Char)
  | Regex.fail, _, _ => []
  | Regex.eps, at0, s => [(at0, s)]
  | Regex.bol, at0, s => if at0 then [(at0, s)] else []
  | Regex.char c, _, s =>
    match s with
    | [] => []
    | x :: xs => if x = c then [(false, xs)] else []
  | Regex.seq r1 r2, at0, s => (runs r1 at0 s).flatMap (fun p => runs r2 p.1 p.2)
  | Regex.alt r1 r2, at0, s => runs r1 at0 s ++ runs r2 at0 s

/-- Python re.match: the pattern matches at the beginning of the string. -/
def re_match (r : Regex) (s : String) : Bool := !(runs r true s.data).isEmpty

/-- A field rule: type (optional), required (default false), regex (optional)
— validacion.py rule dictionaries. -/
structure Rule where
  type? : Option FieldType
  required : Bool
  regex? : Option Regex
deriving DecidableEq, Repr

/-- True when every character is a decimal digit. -/
def allDigits (l : List Char) : Bool := l.all Char.isDigit

/-- Numeric value of a digit string. -/
def digitsVal (l : List Char) : Nat := l.foldl (fun a c => a * 10 + (c.toNat - 48)) 0

/-- Parse a nonempty digit string. -/
def parseDigits (l : List Char) : Option Nat :=
  if !l.isEmpty && allDigits l then some (digitsVal l) else none

/-- Python int(string): optional sign, digits, surrounding whitespace allowed. -/
def pyParseInt (s : String) : Option Int :=
  match stripL s.data with
  | [] => none
  | c :: cs =>
    if c = '-' then (parseDigits cs).map (fun n => -(n : Int))
    else if c = '+' then (parseDigits cs).map (fun n => (n : Int))
    else (parseDigits (c :: cs)).map (fun n => (n : Int))

/-- Gregorian leap year. -/
def isLeap (y : Nat) : Bool := y % 4 == 0 && (y % 100 != 0 || y % 400 == 0)

/-- Days in a month, as datetime.strptime validates them. -/
def daysInMonth (y m : Nat) : Nat :=
  if m = 2 then (if isLeap y then 29 else 28)
  else if m = 4 || m = 6 || m = 9 || m = 11 then 30
  else 31

/-- Split a character list on the dash character. -/
def splitDash : List Char → List (List Char)
  | [] => [[]]
  | c :: cs =>
    if c = '-' then [] :: splitDash cs
    else
      match splitDash cs with
      | [] => [[c]]
      | g :: gs => (c :: g) :: gs

/-- Zero-pad to two digits. -/
def pad2 (n : Nat) : String := if n < 10 then "0" ++ toString n else toString n

/-- Zero-pad to four digits. -/
def pad4 (n : Nat) : String :=
  if n < 10 then "000" ++ toString n
  else if n < 100 then "00" ++ toString n
  else if n < 1000 then "0" ++ toString n
  else toString n

/-- strftime of a date with format Y-m-d. -/
def dateStr (y m d : Nat) : String := pad4 y ++ "-" ++ pad2 m ++ "-" ++ pad2 d

/-- datetime.strptime(s, Y-m-d format): three dash-separated digit groups with
calendar validation; anything else raises, modelled as none. -/
def parseDate (s : String) : Option (Nat × Nat × Nat) :=
  match splitDash s.data with
  | [ys, ms, ds] =>
    if !ys.isEmpty && ys.length ≤ 4 && allDigits ys
        && !ms.isEmpty && ms.length ≤ 2 && allDigits ms
        && !ds.isEmpty && ds.length ≤ 2 && allDigits ds then
      let y := digitsVal ys
      let m := digitsVal ms
      let d := digitsVal ds
      if 1 ≤ m ∧ m ≤ 12 ∧ 1 ≤ d ∧ d ≤ daysInMonth y m then some (y, m, d) else none
    else none
  | _ => none

/-- Python str(value) on the modelled scalars (str of a datetime carries the
time component, which is why a coerced date fails a second date parse). -/
def pyStr (v : Value) : String :=
  match v with
  | Value.vNull => "None"
  | Value.vInt n => toString n
  | Value.vStr s => s
  | Value.vDate y m d => dateStr y m d ++ " 00:00:00"

/-- Type coercion of validacion.py lines 77-86: int(value),
strptime(str(value)), str(value).strip(); failure raises, modelled as none. -/
def coerce (t : FieldType) (v : Value) : Option Value :=
  match t with
  | FieldType.int =>
    match v with
    | Value.vInt n => some (Value.vInt n)
    | Value.vStr s => (pyParseInt s).map Value.vInt
    | _ => none
  | FieldType.date => (parseDate (pyStr v)).map (fun t => Value.vDate t.1 t.2.1 t.2.2)
  | FieldType.str => some (Value.vStr (pyStrip (pyStr v)))

/-- A structured validation error message (the f-strings of lines 88 and 95). -/
inductive ErrMsg where
  | typeFail (value : Value) (expected : FieldType)
  | regexFail (pattern : Regex)
deriving DecidableEq, Repr

/-- The regex step of _validate_value (lines 90-95): the coerced value is
rendered (dates as Y-m-d) and matched with re.match. -/
def checkRegex (v : Value) (rule : Rule) : Bool × Value × Option ErrMsg :=
  match rule.regex? with
  | none => (true, v, none)
  | some rx =>
    let str_value :=
      match v with
      | Value.vDate y m d => dateStr y m d
      | _ => pyStr v
    if re_match rx str_value then (true, v, none) else (false, Value.vNull, some (ErrMsg.regexFail rx))

/-- _validate_value of validacion.py lines 57-97. -/
def validate_value (value : Value) (rule : Rule) : Bool × Value × Option ErrMsg :=
  if value = Value.vNull then (true, Value.vNull, none)
  else
    match rule.type? with
    | some t =>
      match coerce t value with
      | none => (false, Value.vNull, some (ErrMsg.typeFail value t))
      | some v2 => checkRegex v2 rule
    | none => checkRegex value rule

/-- A row: an ordered field-name / value mapping. -/
abbrev Row : Type := List (String × Value)

/-- A DataFrame: its column list and its rows. -/
structure DFrame where
  cols : List String
  rows : List Row
deriving DecidableEq, Repr

/-- The reason a row was discarded (line 162): the required field that failed,
with the error detail when present. -/
structure DiscardInfo where
  field : String
  err : Option ErrMsg
deriving DecidableEq, Repr

/-- A discarded_rows entry (lines 171-175). -/
structure Discarded where
  original_index : Nat
  reason : DiscardInfo
  row_data : Row
deriving DecidableEq, Repr

/-- The validation report (lines 183-189). -/
structure Report where
  total_input_rows : Nat
  total_valid_rows : Nat
  total_dropped_rows : Nat
  discarded_rows : List Discarded
  invalid_by_field : List (String × Nat)
deriving DecidableEq, Repr

/-- The ValueError of validacion.py line 137: required columns entirely
absent from the input batch. -/
structure SchemaErr where
  entity : String
  missing : List String
deriving DecidableEq, Repr

/-- The per-row loop of validate (lines 151-167): walk the rules in order,
collect the names of fields whose check failed, stop at the first failing
required field, otherwise build the new row from the validated values.
Returns (invalid field names, discard reason if any, new row so far). -/
def processRow (row : Row) : List (String × Rule) → Row → List String →
    List String × Option DiscardInfo × Row
  | [], acc, inv => (inv, none, acc)
  | fr :: rest, acc, inv =>
    let value := (List.lookup fr.1 row).getD Value.vNull
    let res := validate_value value fr.2
    let inv2 := if res.1 then inv else inv ++ [fr.1]
    if fr.2.required && (!res.1 || res.2.1 == Value.vNull) then
      (inv2, some ⟨fr.1, res.2.2⟩, acc)
    else
      processRow row rest (acc ++ [(fr.1, res.2.1)]) inv2

/-- The row loop of validate (lines 146-177): returns (validated rows,
discarded entries, concatenated invalid-field occurrences). -/
def validateRows (eR : List (String × Rule)) : Nat → List Row →
    List Row × List Discarded × List String
  | _, [] => ([], [], [])
  | idx, row :: rest =>
    let pr := processRow row eR [] []
    let t := validateRows eR (idx + 1) rest
    match pr.2.1 with
    | some d => (t.1, ⟨idx, d, row⟩ :: t.2.1, pr.1 ++ t.2.2)
    | none => (pr.2.2 :: t.1, t.2.1, pr.1 ++ t.2.2)

/-- The missing-required-columns check of validate (lines 131-134). -/
def missingRequired (eR : List (String × Rule)) (df : DFrame) : List String :=
  (eR.filter (fun fr => fr.2.required && !(df.cols.contains fr.1))).map (fun fr => fr.1)

/-- The clean DataFrame of validate (validacion.py line 180): the kept rows,
whose columns are the ruled fields; an all-dropped batch keeps the input
columns. -/
def cleanOf (eR : List (String × Rule)) (df : DFrame) : DFrame :=
  if (validateRows eR 0 df.rows).1.isEmpty then DFrame.mk df.cols []
  else DFrame.mk (eR.map (fun fr => fr.1)) (validateRows eR 0 df.rows).1

/-- The validation report of validate (validacion.py lines 183-189). -/
def reportOf (eR : List (String × Rule)) (df : DFrame) : Report :=
  { total_input_rows := df.rows.length,
    total_valid_rows := (validateRows eR 0 df.rows).1.length,
    total_dropped_rows := (validateRows eR 0 df.rows).2.1.length,
    discarded_rows := (validateRows eR 0 df.rows).2.1,
    invalid_by_field := eR.map (fun fr => (fr.1, ((validateRows eR 0 df.rows).2.2).count fr.1)) }

/-- DataValidator.validate of validacion.py lines 99-199, with the rule set
passed explicitly. The raised ValueError becomes an Except.error. -/
def validate (rules : List (String × List (String × Rule))) (df : DFrame) (entity : String) :
    Except SchemaErr (DFrame × Report) :=
  match List.lookup entity rules with
  | none =>
    Except.ok (df,
      { total_input_rows := df.rows.length, total_valid_rows := df.rows.length,
        total_dropped_rows := 0, discarded_rows := [], invalid_by_field := [] })
  | some eR =>
    if (missingRequired eR df).isEmpty then Except.ok (cleanOf eR df, reportOf eR df)
    else Except.error ⟨entity, missingRequired eR df⟩

/-- Spec-side description of a row's failed checks: the ruled fields whose
individual check fails, with no short-circuit on required failures. Used to
compare the report's counters with the spec's reading. -/
def failNames (row : Row) : List (String × Rule) → List String
  | [] => []
  | fr :: rest =>
    if (validate_value ((List.lookup fr.1 row).getD Value.vNull) fr.2).1 then failNames row rest
    else fr.1 :: failNames row rest

/-- An initially empty store. -/
def emptyStore : Store := ⟨[], [], 1⟩

/-- A concrete batch row. -/
def recA : RawRecord := ⟨"ANI", " Decreto 100 ", "2024-01-01", none⟩

/-- A second concrete batch row. -/
def recB : RawRecord := ⟨"ANI", "Decreto 200", "2024-01-02", some "http-x"⟩

/-- A store holding one row whose fields contain the key separator. -/
def collideStore : Store := ⟨[(1, ⟨"a", "b|c", "ANI", none⟩)], [], 2⟩

/-- A batch row whose triple differs from the stored one but whose
concatenated key collides with it. -/
def collideRec : RawRecord := ⟨"ANI", "a|b", "c", some ""⟩

/-- The stored collision row as the engine normalises it. -/
def collideDbNorm : ExistingRow := normalizeDB (projQ ⟨"a", "b|c", "ANI", none⟩)

/-- The batch collision row as the engine normalises it. -/
def collideNorm : NRecord := normalizeRaw collideRec

/-- A batch row belonging to a different entity. -/
def otherRec : RawRecord := ⟨"OTHER", "t", "2024-01-01", none⟩

/-- A concrete rule set for one entity: a required int and an optional int. -/
def rulesGUsers : List (String × Rule) :=
  [("user_id", ⟨some FieldType.int, true, none⟩),
   ("age", ⟨some FieldType.int, false, none⟩)]

/-- The concrete rules document holding rulesGUsers. -/
def rulesG : List (String × List (String × Rule)) := [("users", rulesGUsers)]

/-- A batch missing the required user_id column entirely. -/
def dfMissing : DFrame := ⟨["age"], [[("age", Value.vInt 3)]]⟩

/-- A batch whose first row fails the required field and whose second row is
fine. -/
def dfC3 : DFrame :=
  ⟨["user_id", "age"],
   [[("user_id", Value.vStr "abc"), ("age", Value.vInt 3)],
    [("user_id", Value.vInt 2), ("age", Value.vInt 4)]]⟩

/-- A single rule with no constraints on field a. -/
def rulesPassUsers : List (String × Rule) := [("a", ⟨none, false, none⟩)]

/-- The rules document holding rulesPassUsers. -/
def rulesPass : List (String × List (String × Rule)) := [("users", rulesPassUsers)]

/-- A batch with one ruled field and one unruled extra field. -/
def dfPass : DFrame :=
  ⟨["a", "extra"], [[("a", Value.vStr "x"), ("extra", Value.vStr "keep")]]⟩

/-- A row where the required field and the optional field both fail their
int checks. -/
def dfC5 : DFrame :=
  ⟨["user_id", "age"], [[("user_id", Value.vStr "abc"), ("age", Value.vStr "xyz")]]⟩

/-- A single optional int rule. -/
def rulesSoftUsers : List (String × Rule) := [("age", ⟨some FieldType.int, false, none⟩)]

/-- The rules document holding rulesSoftUsers. -/
def rulesSoft : List (String × List (String × Rule)) := [("users", rulesSoftUsers)]

/-- A two-row batch with one failing optional value and one passing value. -/
def dfC5w : DFrame := ⟨["age"], [[("age", Value.vStr "xyz")], [("age", Value.vInt 5)]]⟩

/-- The regex rule of the spec example: pattern caret-A, no type, optional. -/
def ruleCaretA : Rule := ⟨none, false, some (Regex.seq Regex.bol (Regex.char 'A'))⟩

-- FIXTURES-END

-- THEOREMS

/-- The head surviving dropWhile fails the predicate. -/
theorem dropWhile_head_not {α : Type} (p : α → Bool) (l : List α) (c : α)
    (h : (l.dropWhile p).head? = some c) : p c = false := by
  have h2 := List.head?_dropWhile_not p l
  rw [h] at h2
  exact h2

/-- dropWhile is the identity when the head already fails the predicate. -/
theorem dropWhile_eq_self_of_head {α : Type} (p : α → Bool) (l : List α)
    (h : ∀ c, l.head? = some c → p c = false) : l.dropWhile p = l := by
  cases l with
  | nil => rfl
  | cons a t =>
    have ha : p a = false := h a rfl
    simp [List.dropWhile_cons, ha]

/-- dropWhile is idempotent. -/
theorem dropWhile_dropWhile {α : Type} (p : α → Bool) (l : List α) :
    (l.dropWhile p).dropWhile p = l.dropWhile p :=
  dropWhile_eq_self_of_head p _ (fun c h => dropWhile_head_not p l c h)

/-- dropWhile keeps the last element when its result is nonempty. -/
theorem getLast?_dropWhile {α : Type} (p : α → Bool) (l : List α)
    (h : l.dropWhile p ≠ []) : (l.dropWhile p).getLast? = l.getLast? := by
  obtain ⟨t, ht⟩ := List.dropWhile_suffix (l := l) p
  conv_rhs => rw [← ht]
  rw [List.getLast?_append]
  obtain ⟨x, hx⟩ := Option.isSome_iff_exists.mp (List.getLast?_isSome.mpr h)
  rw [hx]
  rfl

/-- The head of a stripped list is not whitespace. -/
theorem stripL_head_not (l : List Char) (c : Char)
    (h : (stripL l).head? = some c) : Char.isWhitespace c = false := by
  unfold stripL at h
  rw [List.head?_reverse] at h
  by_cases hnil : (l.dropWhile Char.isWhitespace).reverse.dropWhile Char.isWhitespace = []
  · rw [hnil] at h
    simp at h
  · rw [getLast?_dropWhile _ _ hnil, List.getLast?_reverse] at h
    exact dropWhile_head_not _ _ _ h

/-- The last element of a stripped list is not whitespace. -/
theorem stripL_last_not (l : List Char) (c : Char)
    (h : (stripL l).getLast? = some c) : Char.isWhitespace c = false := by
  unfold stripL at h
  rw [List.getLast?_reverse] at h
  exact dropWhile_head_not _ _ _ h

/-- Stripping is idempotent on character lists. -/
theorem stripL_idem (l : List Char) : stripL (stripL l) = stripL l := by
  have h1 : (stripL l).dropWhile Char.isWhitespace = stripL l :=
    dropWhile_eq_self_of_head _ _ (fun c h => stripL_head_not l c h)
  have h2 : (stripL l).reverse.dropWhile Char.isWhitespace = (stripL l).reverse := by
    apply dropWhile_eq_self_of_head
    intro c h
    rw [List.head?_reverse] at h
    exact stripL_last_not l c h
  show (((stripL l).dropWhile Char.isWhitespace).reverse.dropWhile Char.isWhitespace).reverse
      = stripL l
  rw [h1, h2, List.reverse_reverse]

/-- Python strip is idempotent. -/
theorem pyStrip_idem (s : String) : pyStrip (pyStrip s) = pyStrip s := by
  show String.mk (stripL (String.mk (stripL s.data)).data) = String.mk (stripL s.data)
  rw [show (String.mk (stripL s.data)).data = stripL s.data from rfl, stripL_idem]

/-- Internal dedup only returns rows of its input. -/
theorem dropDupAux_subset (xs : List NRecord) (seen : List (String × String × String))
    (x : NRecord) (hx : x ∈ dropDupAux xs seen) : x ∈ xs := by
  induction xs generalizing seen with
  | nil => simp [dropDupAux] at hx
  | cons r rs ih =>
    rw [dropDupAux] at hx
    by_cases hm : trip r ∈ seen
    · rw [if_pos hm] at hx
      exact List.mem_cons_of_mem _ (ih _ hx)
    · rw [if_neg hm] at hx
      rcases List.mem_cons.mp hx with h | h
      · exact h ▸ List.mem_cons_self _ _
      · exact List.mem_cons_of_mem _ (ih _ h)

/-- Every input row either has its triple in seen, or a kept row carries the
same triple. -/
theorem dropDupAux_cover (xs : List NRecord) (seen : List (String × String × String))
    (x : NRecord) (hx : x ∈ xs) :
    trip x ∈ seen ∨ ∃ y, y ∈ dropDupAux xs seen ∧ trip y = trip x := by
  induction xs generalizing seen with
  | nil => simp at hx
  | cons r rs ih =>
    rw [dropDupAux]
    rcases List.mem_cons.mp hx with h | h
    · subst h
      by_cases hm : trip x ∈ seen
      · exact Or.inl hm
      · refine Or.inr ⟨x, ?_, rfl⟩
        rw [if_neg hm]
        exact List.mem_cons_self _ _
    · by_cases hm : trip r ∈ seen
      · rw [if_pos hm]
        exact ih _ h
      · rw [if_neg hm]
        rcases ih (trip r :: seen) h with hseen | ⟨y, hy, hty⟩
        · rcases List.mem_cons.mp hseen with heq | hseen2
          · exact Or.inr ⟨r, List.mem_cons_self _ _, heq.symm⟩
          · exact Or.inl hseen2
        · exact Or.inr ⟨y, List.mem_cons_of_mem _ hy, hty⟩

/-- Internal dedup of a nonempty list with nothing seen is nonempty. -/
theorem dropDupAux_eq_nil (xs : List NRecord) (h : dropDupAux xs [] = []) : xs = [] := by
  cases xs with
  | nil => rfl
  | cons r rs =>
    rw [dropDupAux, if_neg (List.not_mem_nil _)] at h
    exact absurd h (List.cons_ne_nil _ _)

/-- Equal identity triples give equal unique keys. -/
theorem trip_eq_key_eq (x y : NRecord) (h : trip x = trip y) : keyN x = keyN y := by
  have h1 : x.title = y.title := congrArg Prod.fst h
  have h2 : x.created_at = y.created_at := congrArg (fun p => p.2.1) h
  have h3 : x.external_link = y.external_link := congrArg (fun p => p.2.2) h
  show uniqueKey x.title x.created_at x.external_link
      = uniqueKey y.title y.created_at y.external_link
  rw [h1, h2, h3]

/-- The rows a bulk insert assigns ids to. -/
theorem assignIds_map_snd (l : List NRecord) (n : Nat) :
    (assignIds n l).map Prod.snd = l.map regRow := by
  induction l generalizing n with
  | nil => rfl
  | cons x xs ih => simp [assignIds, ih]

/-- Every stored pair produced by assignIds is a regRow of an input record. -/
theorem assignIds_mem (l : List NRecord) (n : Nat) (p : Nat × TableRow)
    (hp : p ∈ assignIds n l) : ∃ x, x ∈ l ∧ p.2 = regRow x := by
  induction l generalizing n with
  | nil => simp [assignIds] at hp
  | cons x xs ih =>
    rw [assignIds] at hp
    rcases List.mem_cons.mp hp with h | h
    · exact ⟨x, List.mem_cons_self _ _, by rw [h]⟩
    · obtain ⟨y, hy, he⟩ := ih _ h
      exact ⟨y, List.mem_cons_of_mem _ hy, he⟩

/-- Inserted rows of one entity all pass the entity filter. -/
theorem assignIds_filter_entity (l : List NRecord) (n : Nat) (e : String)
    (h : ∀ x ∈ l, x.entity = e) :
    (assignIds n l).filter (fun p => p.2.entity == e) = assignIds n l := by
  apply List.filter_eq_self.mpr
  intro p hp
  obtain ⟨x, hx, he⟩ := assignIds_mem l n p hp
  have : p.2.entity = x.entity := by rw [he]; rfl
  rw [this, h x hx]
  exact beq_self_eq_true e

/-- The SELECT after a bulk insert returns the old projections followed by
the projections of the inserted records. -/
theorem queryExisting_bulk (store : Store) (l : List NRecord) (e : String)
    (h : ∀ x ∈ l, x.entity = e) :
    queryExisting (bulkInsertRows store l) e =
      queryExisting store e ++ l.map (fun x => projQ (regRow x)) := by
  show ((store.rows ++ assignIds store.nextId l).filter (fun p => p.2.entity == e)).map
      (fun p => projQ p.2) = _
  rw [List.filter_append, List.map_append, assignIds_filter_entity l store.nextId e h]
  congr 1
  calc (assignIds store.nextId l).map (fun p => projQ p.2)
      = ((assignIds store.nextId l).map Prod.snd).map projQ := by rw [List.map_map]; rfl
    _ = (l.map regRow).map projQ := by rw [assignIds_map_snd]
    _ = l.map (fun x => projQ (regRow x)) := by rw [List.map_map]; rfl

/-- The key the engine recomputes for a freshly inserted normalised record is
the record's own key. -/
theorem key_roundtrip (x : NRecord) (h : pyStrip x.title = x.title) :
    keyDB (normalizeDB (projQ (regRow x))) = keyN x := by
  show uniqueKey (pyStrip x.title) x.created_at x.external_link = _
  rw [h]
  rfl

/-- The existing-key set after a bulk insert of normalised records. -/
theorem existingKeysFor_bulk (store : Store) (l : List NRecord) (e : String)
    (h : ∀ x ∈ l, x.entity = e) (h2 : ∀ x ∈ l, pyStrip x.title = x.title) :
    existingKeysFor (bulkInsertRows store l) e = existingKeysFor store e ++ l.map keyN := by
  unfold existingKeysFor
  rw [queryExisting_bulk store l e h, List.map_append, List.map_append]
  congr 1
  rw [List.map_map, List.map_map]
  apply List.map_congr_left
  intro x hx
  exact key_roundtrip x (h2 x hx)

/-- queryExisting only looks at the rows. -/
theorem queryExisting_congr_rows (s1 s2 : Store) (e : String) (h : s1.rows = s2.rows) :
    queryExisting s1 e = queryExisting s2 e := by
  unfold queryExisting
  rw [h]

/-- The component insert does not change the regulations rows. -/
theorem component_rows (st : Store) (ids : List Nat) :
    (insert_regulations_component st ids).1.rows = st.rows := by
  unfold insert_regulations_component
  by_cases h : ids.isEmpty
  · rw [if_pos h]
  · rw [if_neg h]

/-- insert_new_records when the batch holds no row for the entity
(escritura.py lines 47-48). -/
theorem iemr_br1 (store : Store) (df : List RawRecord) (e : String)
    (h : (entityDf df e).isEmpty = true) :
    insert_new_records store df e =
      ⟨0, "No records found for entity " ++ e, store, 0, 0, [StoreOp.query]⟩ := by
  unfold insert_new_records
  rw [if_pos h]

/-- insert_new_records when everything is filtered out as duplicate
(escritura.py lines 113-114). -/
theorem iemr_br2 (store : Store) (df : List RawRecord) (e : String)
    (h1 : (entityDf df e).isEmpty = false)
    (h2 : (newRecordsOf store df e).isEmpty = true) :
    insert_new_records store df e =
      ⟨0, "No new records found for entity " ++ e ++ " after duplicate validation",
       store, (clsOf store df e).2, internalOf store df e, [StoreOp.query]⟩ := by
  unfold insert_new_records
  rw [if_neg (by simp [h1]), if_pos h2]

/-- insert_new_records on the successful insert path (escritura.py
lines 116-190). -/
theorem iemr_br3 (store : Store) (df : List RawRecord) (e : String)
    (h1 : (entityDf df e).isEmpty = false)
    (h2 : (newRecordsOf store df e).isEmpty = false) :
    insert_new_records store df e =
      ⟨(newRecordsOf store df e).length,
       finalMessage e (edfOf df e).length (queryExisting store e).length
         ((clsOf store df e).2 + internalOf store df e) (newRecordsOf store df e).length
         (insert_regulations_component (bulkInsertRows store (newRecordsOf store df e))
           (readBackIds (bulkInsertRows store (newRecordsOf store df e)) e
             (newRecordsOf store df e).length)).2.2,
       (insert_regulations_component (bulkInsertRows store (newRecordsOf store df e))
         (readBackIds (bulkInsertRows store (newRecordsOf store df e)) e
           (newRecordsOf store df e).length)).1,
       (clsOf store df e).2, internalOf store df e,
       [StoreOp.query, StoreOp.bulkInsert, StoreOp.query] ++
         (if (readBackIds (bulkInsertRows store (newRecordsOf store df e)) e
             (newRecordsOf store df e).length).isEmpty then [] else [StoreOp.bulkInsert])⟩ := by
  unfold insert_new_records
  rw [if_neg (by simp [h1]), if_neg (by simp [h2])]

/-- Rows of the entity that survive classification are batch rows whose key
misses every existing key. -/
theorem mem_cls_fst (store : Store) (df : List RawRecord) (e : String) (x : NRecord)
    (hx : x ∈ (clsOf store df e).1) : x ∈ edfOf df e := by
  unfold clsOf classifyDuplicates at hx
  by_cases hdb : (((queryExisting store e).map normalizeDB)).isEmpty
  · rw [if_pos hdb] at hx
    exact hx
  · rw [if_neg hdb] at hx
    exact (List.mem_filter.mp hx).1

/-- Normalised batch rows carry the entity of the call. -/
theorem edf_entity (df : List RawRecord) (e : String) (x : NRecord)
    (hx : x ∈ edfOf df e) : x.entity = e := by
  obtain ⟨r, hr, he⟩ := List.mem_map.mp hx
  have : r.entity == e := (List.mem_filter.mp hr).2
  have h2 : r.entity = e := by
    exact eq_of_beq this
  rw [← he]
  show r.entity = e
  exact h2

/-- Normalised batch rows have stripped titles. -/
theorem edf_title_stripped (df : List RawRecord) (e : String) (x : NRecord)
    (hx : x ∈ edfOf df e) : pyStrip x.title = x.title := by
  obtain ⟨r, hr, he⟩ := List.mem_map.mp hx
  rw [← he]
  show pyStrip (pyStrip r.title) = pyStrip r.title
  exact pyStrip_idem r.title

/-- A normalised batch row either survives classification or its key is
among the existing keys. -/
theorem cls_cases (store : Store) (df : List RawRecord) (e : String) (x : NRecord)
    (hx : x ∈ edfOf df e) :
    x ∈ (clsOf store df e).1 ∨ keyN x ∈ existingKeysFor store e := by
  unfold clsOf classifyDuplicates
  by_cases hdb : ((queryExisting store e).map normalizeDB).isEmpty
  · rw [if_pos hdb]
    exact Or.inl hx
  · rw [if_neg hdb]
    by_cases hc : (((queryExisting store e).map normalizeDB).map keyDB).contains (keyN x)
    · right
      show keyN x ∈ ((queryExisting store e).map normalizeDB).map keyDB
      exact List.elem_iff.mp hc
    · left
      show x ∈ (edfOf df e).filter
        (fun r => !((((queryExisting store e).map normalizeDB).map keyDB).contains (keyN r)))
      apply List.mem_filter.mpr
      refine ⟨hx, ?_⟩
      simp only [Bool.not_eq_true'] at hc ⊢
      cases hcc : (((queryExisting store e).map normalizeDB).map keyDB).contains (keyN x)
      · rfl
      · exact absurd hcc hc

/-- When classification leaves nothing, every normalised batch row's key is
among the existing keys. -/
theorem cls_nil_covered (store : Store) (df : List RawRecord) (e : String) (x : NRecord)
    (hx : x ∈ edfOf df e) (hnil : (clsOf store df e).1 = []) :
    keyN x ∈ existingKeysFor store e := by
  rcases cls_cases store df e x hx with h | h
  · rw [hnil] at h
    simp at h
  · exact h

/-- After one call, the engine's key set for the entity contains the key of
every normalised batch row of that entity: each row was either already
existing, or just inserted, or an internal duplicate of an inserted row. -/
theorem keys_cover (store : Store) (df : List RawRecord) (e : String) (x : NRecord)
    (hx : x ∈ edfOf df e) :
    keyN x ∈ existingKeysFor (insert_new_records store df e).store e := by
  have hne : (entityDf df e).isEmpty = false := by
    obtain ⟨r, hr, _⟩ := List.mem_map.mp hx
    cases hcase : (entityDf df e).isEmpty
    · rfl
    · rw [List.isEmpty_iff.mp hcase] at hr
      simp at hr
  cases hnr : (newRecordsOf store df e).isEmpty with
  | true =>
    rw [iemr_br2 store df e hne hnr]
    have hnil : (clsOf store df e).1 = [] :=
      dropDupAux_eq_nil _ (List.isEmpty_iff.mp hnr)
    exact cls_nil_covered store df e x hx hnil
  | false =>
    have hsub : ∀ y ∈ newRecordsOf store df e, y ∈ edfOf df e := by
      intro y hy
      exact mem_cls_fst store df e y (dropDupAux_subset _ _ _ hy)
    have hkeys : existingKeysFor (insert_new_records store df e).store e
        = existingKeysFor store e ++ (newRecordsOf store df e).map keyN := by
      rw [iemr_br3 store df e hne hnr]
      have hrows : (insert_regulations_component (bulkInsertRows store (newRecordsOf store df e))
          (readBackIds (bulkInsertRows store (newRecordsOf store df e)) e
            (newRecordsOf store df e).length)).1.rows
          = (bulkInsertRows store (newRecordsOf store df e)).rows := component_rows _ _
      have hq : queryExisting (insert_regulations_component
            (bulkInsertRows store (newRecordsOf store df e))
            (readBackIds (bulkInsertRows store (newRecordsOf store df e)) e
              (newRecordsOf store df e).length)).1 e
          = queryExisting (bulkInsertRows store (newRecordsOf store df e)) e :=
        queryExisting_congr_rows _ _ e hrows
      show existingKeysFor _ e = _
      unfold existingKeysFor
      rw [hq]
      have hb := existingKeysFor_bulk store (newRecordsOf store df e) e
        (fun y hy => edf_entity df e y (hsub y hy))
        (fun y hy => edf_title_stripped df e y (hsub y hy))
      unfold existingKeysFor at hb
      exact hb
    rw [hkeys]
    rcases cls_cases store df e x hx with h | h
    · rcases dropDupAux_cover _ [] x h with habs | ⟨y, hy, hty⟩
      · simp at habs
      · apply List.mem_append.mpr
        right
        exact List.mem_map.mpr ⟨y, hy, trip_eq_key_eq y x hty⟩
    · exact List.mem_append.mpr (Or.inl h)

/-- A nonempty list has isEmpty false. -/
theorem isEmpty_false_of_ne_nil {α : Type} (l : List α) (h : l ≠ []) : l.isEmpty = false := by
  cases l with
  | nil => exact absurd rfl h
  | cons a t => rfl

/-- C1: running insert_new_records a second time on the same batch, after a
first run has persisted its records, inserts nothing: the second run
classifies every record of the batch as duplicate-against-existing (the
duplicate-against-existing count equals the batch size and the internal
count is zero), returns an inserted count of zero, and leaves the store
untouched. -/
theorem claim_C1_second_run_idempotent (store : Store) (df : List RawRecord) (e : String)
    (hall : ∀ r ∈ df, r.entity = e) (hne : df ≠ []) :
    (insert_new_records (insert_new_records store df e).store df e).inserted = 0 ∧
    (insert_new_records (insert_new_records store df e).store df e).duplicatesFound = df.length ∧
    (insert_new_records (insert_new_records store df e).store df e).internalDuplicates = 0 ∧
    (insert_new_records (insert_new_records store df e).store df e).store =
      (insert_new_records store df e).store := by
  have hfilter : entityDf df e = df := by
    apply List.filter_eq_self.mpr
    intro r hr
    rw [hall r hr]
    exact beq_self_eq_true e
  have hlen : (edfOf df e).length = df.length := by
    unfold edfOf
    rw [hfilter, List.length_map]
  have hedfne : edfOf df e ≠ [] := by
    unfold edfOf
    rw [hfilter]
    intro hmapnil
    exact hne (List.map_eq_nil_iff.mp hmapnil)
  have hne1 : (entityDf df e).isEmpty = false := by
    rw [hfilter]
    exact isEmpty_false_of_ne_nil df hne
  have hcov : ∀ x ∈ edfOf df e,
      keyN x ∈ existingKeysFor (insert_new_records store df e).store e :=
    fun x hx => keys_cover store df e x hx
  obtain ⟨x0, hx0⟩ := List.exists_mem_of_ne_nil _ hedfne
  have hkeysne : existingKeysFor (insert_new_records store df e).store e ≠ [] :=
    List.ne_nil_of_mem (hcov x0 hx0)
  have hdbne : (queryExisting (insert_new_records store df e).store e).map normalizeDB ≠ [] := by
    intro hnil
    apply hkeysne
    unfold existingKeysFor
    rw [hnil]
    rfl
  have hdb2 : ((queryExisting (insert_new_records store df e).store e).map normalizeDB).isEmpty
      = false := isEmpty_false_of_ne_nil _ hdbne
  have hnews : (edfOf df e).filter (fun r =>
      !((((queryExisting (insert_new_records store df e).store e).map normalizeDB).map
        keyDB).contains (keyN r))) = [] := by
    apply List.filter_eq_nil_iff.mpr
    intro x hx
    have hmem : keyN x ∈ ((queryExisting (insert_new_records store df e).store e).map
        normalizeDB).map keyDB := hcov x hx
    have hc : (((queryExisting (insert_new_records store df e).store e).map
        normalizeDB).map keyDB).contains (keyN x) = true := List.elem_iff.mpr hmem
    rw [hc]
    simp
  have hcls1 : (clsOf (insert_new_records store df e).store df e).1 = [] := by
    unfold clsOf classifyDuplicates
    rw [if_neg (by simp [hdb2])]
    exact hnews
  have hcls2 : (clsOf (insert_new_records store df e).store df e).2 = df.length := by
    unfold clsOf classifyDuplicates
    rw [if_neg (by simp [hdb2])]
    show (edfOf df e).length - ((edfOf df e).filter _).length = df.length
    rw [hnews]
    show (edfOf df e).length - 0 = df.length
    rw [Nat.sub_zero, hlen]
  have hnr2 : (newRecordsOf (insert_new_records store df e).store df e).isEmpty = true := by
    unfold newRecordsOf dropDuplicatesFirst
    rw [hcls1]
    rfl
  have hint : internalOf (insert_new_records store df e).store df e = 0 := by
    unfold internalOf
    rw [hcls2, hlen]
    unfold newRecordsOf dropDuplicatesFirst
    rw [hcls1]
    show df.length - df.length - ([] : List NRecord).length = 0
    rw [Nat.sub_self]
    rfl
  rw [iemr_br2 (insert_new_records store df e).store df e hne1 hnr2, hcls2, hint]
  exact ⟨rfl, rfl, rfl, rfl⟩

/-- Witness for C1 at a concrete store and two-record batch. -/
theorem claim_C1_witness :
    (∀ r ∈ [recA, recB], r.entity = "ANI") ∧ ([recA, recB] ≠ ([] : List RawRecord)) ∧
    (insert_new_records (insert_new_records emptyStore [recA, recB] "ANI").store
      [recA, recB] "ANI").inserted = 0 ∧
    (insert_new_records (insert_new_records emptyStore [recA, recB] "ANI").store
      [recA, recB] "ANI").duplicatesFound = 2 := by
  have h := claim_C1_second_run_idempotent emptyStore [recA, recB] "ANI"
    (by decide) (by decide)
  exact ⟨by decide, by decide, h.1, h.2.1⟩

/-- Counterexample to C2: the stored row (title "a", created_at "b|c",
link "") and the batch row (title "a|b", created_at "c", link "") have
different normalised triples, yet their concatenated keys coincide and the
engine classifies the batch row as a duplicate of the stored one: nothing
is inserted. -/
theorem claim_C2_cex :
    (collideDbNorm.title, collideDbNorm.created_at, collideDbNorm.external_link)
        ≠ trip collideNorm ∧
    keyDB collideDbNorm = keyN collideNorm ∧
    (insert_new_records collideStore [collideRec] "ANI").duplicatesFound = 1 ∧
    (insert_new_records collideStore [collideRec] "ANI").inserted = 0 := by
  refine ⟨by decide, by decide, ?_, ?_⟩ <;> decide

/-- C2 amended: the duplicate classifier treats a batch record as already
existing precisely when its concatenated unique key (title, created_at and
external_link joined with a pipe) equals the key of some existing record;
equal normalised triples always give equal keys, but distinct triples may
collide when the fields contain the pipe separator, so key equality does not
imply triple equality. -/
theorem claim_C2_amended :
    (∀ x y : NRecord, trip x = trip y → keyN x = keyN y) ∧
    (∀ (db_norm : List ExistingRow) (edf : List NRecord) (r : NRecord),
      db_norm ≠ [] → r ∈ edf →
      (r ∈ (classifyDuplicates db_norm edf).1 ↔ ¬ ∃ d, d ∈ db_norm ∧ keyDB d = keyN r)) := by
  constructor
  · exact fun x y h => trip_eq_key_eq x y h
  · intro db_norm edf r hdb hr
    unfold classifyDuplicates
    rw [if_neg (by simp [isEmpty_false_of_ne_nil db_norm hdb])]
    constructor
    · intro hmem hex
      obtain ⟨d, hd, hkey⟩ := hex
      have hin : keyN r ∈ db_norm.map keyDB := List.mem_map.mpr ⟨d, hd, hkey⟩
      have hpred := (List.mem_filter.mp hmem).2
      have hc : (db_norm.map keyDB).contains (keyN r) = true := List.elem_iff.mpr hin
      rw [hc] at hpred
      simp at hpred
    · intro hno
      apply List.mem_filter.mpr
      refine ⟨hr, ?_⟩
      cases hc : (db_norm.map keyDB).contains (keyN r) with
      | false => rfl
      | true =>
        obtain ⟨d, hd, hkey⟩ := List.mem_map.mp (List.elem_iff.mp hc)
        exact absurd ⟨d, hd, hkey⟩ hno

/-- Witness for the amended C2: with the collision fixtures, the batch row is
dropped as a duplicate because its key matches the stored row's key. -/
theorem claim_C2_witness : collideNorm ∉ (classifyDuplicates [collideDbNorm] [collideNorm]).1 := by
  intro hmem
  have h := (claim_C2_amended.2 [collideDbNorm] [collideNorm] collideNorm
    (by decide) (by decide)).mp hmem
  exact h ⟨collideDbNorm, by decide, by decide⟩

/-- C8: a two-record batch whose records share the same normalised identity
triple and match no existing record yields exactly one new record — the
first occurrence — and one internal-duplicate count, with zero
duplicates-against-existing. -/
theorem claim_C8_internal_dup_collapse (store : Store) (e : String) (r1 r2 : RawRecord)
    (h1 : r1.entity = e) (h2 : r2.entity = e)
    (htrip : trip (normalizeRaw r1) = trip (normalizeRaw r2))
    (hnew : keyN (normalizeRaw r1) ∉ existingKeysFor store e) :
    (insert_new_records store [r1, r2] e).inserted = 1 ∧
    (insert_new_records store [r1, r2] e).duplicatesFound = 0 ∧
    (insert_new_records store [r1, r2] e).internalDuplicates = 1 ∧
    (insert_new_records store [r1, r2] e).store.rows.map Prod.snd =
      store.rows.map Prod.snd ++ [regRow (normalizeRaw r1)] := by
  have hfilter : entityDf [r1, r2] e = [r1, r2] := by
    apply List.filter_eq_self.mpr
    intro r hr
    rcases List.mem_cons.mp hr with h | h
    · rw [h, h1]
      exact beq_self_eq_true e
    · rw [List.mem_singleton.mp h, h2]
      exact beq_self_eq_true e
  have hedf : edfOf [r1, r2] e = [normalizeRaw r1, normalizeRaw r2] := by
    unfold edfOf
    rw [hfilter]
    rfl
  have hkey21 : keyN (normalizeRaw r2) = keyN (normalizeRaw r1) :=
    trip_eq_key_eq _ _ htrip.symm
  have hc1 : (((queryExisting store e).map normalizeDB).map keyDB).contains
      (keyN (normalizeRaw r1)) = false := by
    cases hc : (((queryExisting store e).map normalizeDB).map keyDB).contains
        (keyN (normalizeRaw r1)) with
    | false => rfl
    | true => exact absurd (List.elem_iff.mp hc) hnew
  have hc2 : (((queryExisting store e).map normalizeDB).map keyDB).contains
      (keyN (normalizeRaw r2)) = false := by
    rw [hkey21]
    exact hc1
  have hcls : clsOf store [r1, r2] e = ([normalizeRaw r1, normalizeRaw r2], 0) := by
    unfold clsOf classifyDuplicates
    rw [hedf]
    by_cases hdb : ((queryExisting store e).map normalizeDB).isEmpty
    · rw [if_pos hdb]
    · rw [if_neg hdb]
      show (List.filter _ [normalizeRaw r1, normalizeRaw r2], _) = _
      rw [List.filter_cons, List.filter_cons, List.filter_nil]
      rw [hc1, hc2]
      rfl
  have hnr : newRecordsOf store [r1, r2] e = [normalizeRaw r1] := by
    unfold newRecordsOf dropDuplicatesFirst
    rw [hcls]
    show dropDupAux [normalizeRaw r1, normalizeRaw r2] [] = _
    rw [dropDupAux, if_neg (List.not_mem_nil _)]
    rw [dropDupAux, if_pos (List.mem_singleton.mpr htrip.symm)]
    rfl
  have hint : internalOf store [r1, r2] e = 1 := by
    unfold internalOf
    rw [hedf, hcls, hnr]
    rfl
  have hne1 : (entityDf [r1, r2] e).isEmpty = false := by
    rw [hfilter]
    rfl
  have hnrne : (newRecordsOf store [r1, r2] e).isEmpty = false := by
    rw [hnr]
    rfl
  rw [iemr_br3 store [r1, r2] e hne1 hnrne]
  refine ⟨by rw [hnr]; rfl, by rw [hcls], by rw [hint], ?_⟩
  show (insert_regulations_component (bulkInsertRows store (newRecordsOf store [r1, r2] e))
      _).1.rows.map Prod.snd = _
  rw [component_rows]
  show ((store.rows ++ assignIds store.nextId (newRecordsOf store [r1, r2] e)).map Prod.snd) = _
  rw [List.map_append, assignIds_map_snd, hnr]
  rfl

/-- Witness for C8: a batch of two copies of the same raw record against the
empty store inserts exactly one row. -/
theorem claim_C8_witness :
    (insert_new_records emptyStore [recA, recA] "ANI").inserted = 1 ∧
    (insert_new_records emptyStore [recA, recA] "ANI").duplicatesFound = 0 ∧
    (insert_new_records emptyStore [recA, recA] "ANI").internalDuplicates = 1 := by
  have h := claim_C8_internal_dup_collapse emptyStore "ANI" recA recA
    (by decide) (by decide) (by decide) (by decide)
  exact ⟨h.1, h.2.1, h.2.2.1⟩

/-- Counterexample to C9: on an empty batch the engine does issue a store
operation (the initial SELECT of existing records runs before the emptiness
check) and the returned message is not the literal pair ("no new records"). -/
theorem claim_C9_cex :
    (insert_new_records emptyStore [] "ANI").message ≠ "no new records" ∧
    (insert_new_records emptyStore [] "ANI").ops = [StoreOp.query] := by
  exact ⟨by decide, by decide⟩

/-- C9 amended: whenever the engine inserts nothing, it returns count zero
with one of the two descriptive no-new-records messages, leaves the store
unchanged, and performs no write — only the initial read query has been
issued. -/
theorem claim_C9_empty_no_write (store : Store) (df : List RawRecord) (e : String)
    (h : (insert_new_records store df e).inserted = 0) :
    (insert_new_records store df e).store = store ∧
    (insert_new_records store df e).ops = [StoreOp.query] ∧
    ((insert_new_records store df e).message = "No records found for entity " ++ e ∨
     (insert_new_records store df e).message =
       "No new records found for entity " ++ e ++ " after duplicate validation") := by
  cases h1 : (entityDf df e).isEmpty with
  | true =>
    rw [iemr_br1 store df e h1]
    exact ⟨rfl, rfl, Or.inl rfl⟩
  | false =>
    cases h2 : (newRecordsOf store df e).isEmpty with
    | true =>
      rw [iemr_br2 store df e h1 h2]
      exact ⟨rfl, rfl, Or.inr rfl⟩
    | false =>
      exfalso
      rw [iemr_br3 store df e h1 h2] at h
      have hlen : (newRecordsOf store df e).length = 0 := h
      have hnil := List.eq_nil_of_length_eq_zero hlen
      rw [hnil] at h2
      exact absurd h2 (by simp)

/-- Witness for the amended C9 at the empty batch. -/
theorem claim_C9_witness :
    (insert_new_records emptyStore [] "ANI").inserted = 0 ∧
    (insert_new_records emptyStore [] "ANI").store = emptyStore ∧
    (insert_new_records emptyStore [] "ANI").ops = [StoreOp.query] := by
  have h := claim_C9_empty_no_write emptyStore [] "ANI" (by decide)
  exact ⟨by decide, h.1, h.2.1⟩

/-- C10: the engine only considers batch rows whose entity field equals the
entity argument — the whole result is determined by the filtered batch; a
batch with no row for the entity inserts nothing and leaves the store
unchanged; and every stored row is either pre-existing or carries the
requested entity. -/
theorem claim_C10_entity_scoped (store : Store) (df : List RawRecord) (e : String) :
    insert_new_records store df e = insert_new_records store (entityDf df e) e ∧
    (entityDf df e = [] → (insert_new_records store df e).inserted = 0 ∧
      (insert_new_records store df e).store = store) ∧
    (∀ q ∈ (insert_new_records store df e).store.rows, q ∈ store.rows ∨ q.2.entity = e) := by
  have hidem : entityDf (entityDf df e) e = entityDf df e :=
    List.filter_eq_self.mpr (fun a ha => (List.mem_filter.mp ha).2)
  have hedf : edfOf (entityDf df e) e = edfOf df e := by
    unfold edfOf
    rw [hidem]
  have hcls : clsOf store (entityDf df e) e = clsOf store df e := by
    unfold clsOf
    rw [hedf]
  have hnr : newRecordsOf store (entityDf df e) e = newRecordsOf store df e := by
    unfold newRecordsOf
    rw [hcls]
  have hint : internalOf store (entityDf df e) e = internalOf store df e := by
    unfold internalOf
    rw [hedf, hcls, hnr]
  refine ⟨?_, ?_, ?_⟩
  · unfold insert_new_records
    rw [hidem, hedf, hcls, hnr, hint]
  · intro hnil
    have h1 : (entityDf df e).isEmpty = true := by
      rw [hnil]
      rfl
    rw [iemr_br1 store df e h1]
    exact ⟨rfl, rfl⟩
  · intro q hq
    cases h1 : (entityDf df e).isEmpty with
    | true =>
      rw [iemr_br1 store df e h1] at hq
      exact Or.inl hq
    | false =>
      cases h2 : (newRecordsOf store df e).isEmpty with
      | true =>
        rw [iemr_br2 store df e h1 h2] at hq
        exact Or.inl hq
      | false =>
        rw [iemr_br3 store df e h1 h2] at hq
        have hq2 : q ∈ (insert_regulations_component
            (bulkInsertRows store (newRecordsOf store df e))
            (readBackIds (bulkInsertRows store (newRecordsOf store df e)) e
              (newRecordsOf store df e).length)).1.rows := hq
        rw [component_rows] at hq2
        have hq3 : q ∈ store.rows ++ assignIds store.nextId (newRecordsOf store df e) := hq2
        rcases List.mem_append.mp hq3 with h | h
        · exact Or.inl h
        · obtain ⟨x, hx, he⟩ := assignIds_mem _ _ _ h
          right
          have hxe : x.entity = e :=
            edf_entity df e x (mem_cls_fst store df e x (dropDupAux_subset _ _ _ hx))
          rw [he]
          exact hxe

/-- Witness for C10: a batch holding only a foreign-entity row inserts
nothing, and an inserted row for the requested entity carries that entity. -/
theorem claim_C10_witness :
    (insert_new_records emptyStore [otherRec] "ANI").inserted = 0 ∧
    (insert_new_records emptyStore [otherRec] "ANI").store = emptyStore ∧
    ((1, regRow (normalizeRaw recA)) ∈ emptyStore.rows ∨
      (regRow (normalizeRaw recA)).entity = "ANI") := by
  have h := claim_C10_entity_scoped emptyStore [otherRec] "ANI"
  have h2 := claim_C10_entity_scoped emptyStore [recA] "ANI"
  have hemp := h.2.1 (by decide)
  exact ⟨hemp.1, hemp.2, h2.2.2 (1, regRow (normalizeRaw recA)) (by decide)⟩

/-- validate in the error case: a nonempty missing-required-column list is
reported as a SchemaErr naming exactly that list. -/
theorem validate_error_char (rules : List (String × List (String × Rule))) (df : DFrame)
    (entity : String) (eR : List (String × Rule))
    (hlook : List.lookup entity rules = some eR) (hne : missingRequired eR df ≠ []) :
    validate rules df entity = Except.error ⟨entity, missingRequired eR df⟩ := by
  unfold validate
  split
  · rename_i heq
    rw [hlook] at heq
    simp at heq
  · rename_i eR2 heq
    rw [hlook] at heq
    injection heq with h
    subst h
    rw [if_neg (by simp [isEmpty_false_of_ne_nil _ hne])]

/-- validate in the ok case: the missing-column check passed and the clean
frame and report are returned. -/
theorem validate_ok_char (rules : List (String × List (String × Rule))) (df : DFrame)
    (entity : String) (eR : List (String × Rule))
    (hlook : List.lookup entity rules = some eR)
    (hmr : (missingRequired eR df).isEmpty = true) :
    validate rules df entity = Except.ok (cleanOf eR df, reportOf eR df) := by
  unfold validate
  split
  · rename_i heq
    rw [hlook] at heq
    simp at heq
  · rename_i eR2 heq
    rw [hlook] at heq
    injection heq with h
    subst h
    rw [if_pos hmr]

/-- C6: when at least one required column is entirely absent from the batch,
validate fails with an error naming exactly the missing required columns,
and the outcome is independent of the rows — no row is processed, kept or
discarded. -/
theorem claim_C6_missing_required_columns (rules : List (String × List (String × Rule)))
    (df : DFrame) (entity : String) (eR : List (String × Rule))
    (hlook : List.lookup entity rules = some eR)
    (hne : missingRequired eR df ≠ []) :
    validate rules df entity = Except.error ⟨entity, missingRequired eR df⟩ ∧
    (∀ f, f ∈ missingRequired eR df ↔ ∃ rule, (f, rule) ∈ eR ∧ rule.required = true ∧
      df.cols.contains f = false) ∧
    (∀ rows2, validate rules ⟨df.cols, rows2⟩ entity = validate rules df entity) := by
  refine ⟨validate_error_char rules df entity eR hlook hne, ?_, ?_⟩
  · intro f
    constructor
    · intro hf
      obtain ⟨fr, hmem, hfst⟩ := List.mem_map.mp hf
      have hfil := List.mem_filter.mp hmem
      have hp := hfil.2
      simp only [Bool.and_eq_true] at hp
      obtain ⟨hreq, hcon⟩ := hp
      refine ⟨fr.2, ?_, hreq, ?_⟩
      · have heta : (f, fr.2) = fr := by
          rw [← hfst]
        rw [heta]
        exact hfil.1
      · rw [← hfst]
        cases hc : df.cols.contains fr.1 with
        | false => rfl
        | true =>
          rw [hc] at hcon
          simp at hcon
    · intro ⟨rule, hmem, hreq, hcon⟩
      apply List.mem_map.mpr
      refine ⟨(f, rule), ?_, rfl⟩
      apply List.mem_filter.mpr
      refine ⟨hmem, ?_⟩
      show (rule.required && !(df.cols.contains f)) = true
      rw [hreq, hcon]
      rfl
  · intro rows2
    have hne2 : missingRequired eR (⟨df.cols, rows2⟩ : DFrame) ≠ [] := hne
    rw [validate_error_char rules ⟨df.cols, rows2⟩ entity eR hlook hne2,
        validate_error_char rules df entity eR hlook hne]
    rfl

/-- Witness for C6: the fixture batch lacks the required user_id column and
validate fails naming it, independently of the rows. -/
theorem claim_C6_witness :
    validate rulesG dfMissing "users" = Except.error ⟨"users", missingRequired rulesGUsers dfMissing⟩ ∧
    missingRequired rulesGUsers dfMissing = ["user_id"] ∧
    validate rulesG ⟨dfMissing.cols, []⟩ "users" = validate rulesG dfMissing "users" := by
  have h := claim_C6_missing_required_columns rulesG dfMissing "users" rulesGUsers rfl
    (by decide)
  exact ⟨h.1, by decide, h.2.2 []⟩

/-- Each input row lands in exactly one of kept and discarded. -/
theorem validateRows_length (eR : List (String × Rule)) (rows : List Row) (i : Nat) :
    (validateRows eR i rows).1.length + (validateRows eR i rows).2.1.length = rows.length := by
  induction rows generalizing i with
  | nil => rfl
  | cons row rest ih =>
    rw [validateRows]
    cases hpr : (processRow row eR [] []).2.1 with
    | some d =>
      simp only [hpr]
      have := ih (i + 1)
      simp only [List.length_cons]
      omega
    | none =>
      simp only [hpr]
      have := ih (i + 1)
      simp only [List.length_cons]
      omega

/-- A discard produced by the per-row loop names a required rule field whose
value was invalid or validated to null. -/
theorem processRow_discard (row : Row) (fields : List (String × Rule)) (acc : Row)
    (inv : List String) (d : DiscardInfo)
    (h : (processRow row fields acc inv).2.1 = some d) :
    ∃ rule, (d.field, rule) ∈ fields ∧ rule.required = true ∧
      ((validate_value ((List.lookup d.field row).getD Value.vNull) rule).1 = false ∨
       (validate_value ((List.lookup d.field row).getD Value.vNull) rule).2.1 = Value.vNull) := by
  induction fields generalizing acc inv with
  | nil => simp [processRow] at h
  | cons fr rest ih =>
    rw [processRow] at h
    by_cases hcond : (fr.2.required &&
        (!(validate_value ((List.lookup fr.1 row).getD Value.vNull) fr.2).1 ||
          (validate_value ((List.lookup fr.1 row).getD Value.vNull) fr.2).2.1
            == Value.vNull)) = true
    · rw [if_pos hcond] at h
      have hd : d = ⟨fr.1, (validate_value ((List.lookup fr.1 row).getD Value.vNull) fr.2).2.2⟩ := by
        have := h
        injection this with h2
        exact h2.symm
      simp only [Bool.and_eq_true] at hcond
      obtain ⟨hreq, hor⟩ := hcond
      simp only [Bool.or_eq_true] at hor
      refine ⟨fr.2, ?_, hreq, ?_⟩
      · rw [hd]
        show (fr.1, fr.2) ∈ fr :: rest
        have heta : (fr.1, fr.2) = fr := rfl
        rw [heta]
        exact List.mem_cons_self _ _
      · rw [hd]
        rcases hor with h1 | h1
        · left
          show (validate_value ((List.lookup fr.1 row).getD Value.vNull) fr.2).1 = false
          cases hv : (validate_value ((List.lookup fr.1 row).getD Value.vNull) fr.2).1 with
          | false => rfl
          | true =>
            rw [hv] at h1
            simp at h1
        · right
          show (validate_value ((List.lookup fr.1 row).getD Value.vNull) fr.2).2.1 = Value.vNull
          exact eq_of_beq h1
    · rw [if_neg hcond] at h
      obtain ⟨rule, hmem, hreq, hval⟩ := ih _ _ h
      exact ⟨rule, List.mem_cons_of_mem _ hmem, hreq, hval⟩

/-- Every discarded entry records its own row and the reason the per-row loop
produced for it. -/
theorem mem_discarded (eR : List (String × Rule)) (rows : List Row) (i : Nat) (d : Discarded)
    (hd : d ∈ (validateRows eR i rows).2.1) :
    (processRow d.row_data eR [] []).2.1 = some d.reason := by
  induction rows generalizing i with
  | nil => simp [validateRows] at hd
  | cons row rest ih =>
    rw [validateRows] at hd
    cases hpr : (processRow row eR [] []).2.1 with
    | some d0 =>
      simp only [hpr] at hd
      rcases List.mem_cons.mp hd with h | h
      · rw [h]
        exact hpr
      · exact ih (i + 1) h
    | none =>
      simp only [hpr] at hd
      exact ih (i + 1) hd

/-- C3: for a registered entity whose required columns are all present, the
report satisfies total_input_rows = total_valid_rows + total_dropped_rows,
and every discarded entry names a required rule field that was invalid or
null on that row. -/
theorem claim_C3_report_arithmetic (rules : List (String × List (String × Rule)))
    (df : DFrame) (entity : String) (eR : List (String × Rule))
    (hlook : List.lookup entity rules = some eR)
    (hmr : (missingRequired eR df).isEmpty = true) :
    validate rules df entity = Except.ok (cleanOf eR df, reportOf eR df) ∧
    (reportOf eR df).total_input_rows =
      (reportOf eR df).total_valid_rows + (reportOf eR df).total_dropped_rows ∧
    ∀ d ∈ (reportOf eR df).discarded_rows,
      ∃ rule, (d.reason.field, rule) ∈ eR ∧ rule.required = true ∧
        ((validate_value ((List.lookup d.reason.field d.row_data).getD Value.vNull) rule).1 = false ∨
         (validate_value ((List.lookup d.reason.field d.row_data).getD Value.vNull) rule).2.1
           = Value.vNull) := by
  refine ⟨validate_ok_char rules df entity eR hlook hmr, ?_, ?_⟩
  · show df.rows.length = (validateRows eR 0 df.rows).1.length +
      (validateRows eR 0 df.rows).2.1.length
    exact (validateRows_length eR df.rows 0).symm
  · intro d hd
    exact processRow_discard d.row_data eR [] [] d.reason (mem_discarded eR df.rows 0 d hd)

/-- Witness for C3 on the concrete two-row batch with one discard. -/
theorem claim_C3_witness :
    validate rulesG dfC3 "users" = Except.ok (cleanOf rulesGUsers dfC3, reportOf rulesGUsers dfC3) ∧
    (reportOf rulesGUsers dfC3).total_input_rows = 2 ∧
    (reportOf rulesGUsers dfC3).total_valid_rows = 1 ∧
    (reportOf rulesGUsers dfC3).total_dropped_rows = 1 ∧
    (reportOf rulesGUsers dfC3).total_input_rows =
      (reportOf rulesGUsers dfC3).total_valid_rows +
        (reportOf rulesGUsers dfC3).total_dropped_rows := by
  have h := claim_C3_report_arithmetic rulesG dfC3 "users" rulesGUsers rfl rfl
  exact ⟨h.1, rfl, rfl, rfl, h.2.1⟩

/-- Counterexample to C4: the input row has an unruled field "extra" with
value "keep"; the row is kept, yet the validated output row does not contain
"extra" at all — unruled fields are dropped, not passed through. -/
theorem claim_C4_cex :
    validate rulesPass dfPass "users" =
      Except.ok (⟨["a"], [[("a", Value.vStr "x")]]⟩,
        ⟨1, 1, 0, [], [("a", 0)]⟩) ∧
    List.lookup "extra" [("a", Value.vStr "x")] = (none : Option Value) := by
  exact ⟨rfl, rfl⟩

/-- A completed per-row loop emits exactly the ruled fields, in rule order,
appended to the accumulator. -/
theorem processRow_keys (row : Row) (fields : List (String × Rule)) (acc : Row)
    (inv : List String) (h : (processRow row fields acc inv).2.1 = none) :
    (processRow row fields acc inv).2.2.map Prod.fst =
      acc.map Prod.fst ++ fields.map Prod.fst := by
  induction fields generalizing acc inv with
  | nil => simp [processRow]
  | cons fr rest ih =>
    rw [processRow] at h ⊢
    by_cases hcond : (fr.2.required &&
        (!(validate_value ((List.lookup fr.1 row).getD Value.vNull) fr.2).1 ||
          (validate_value ((List.lookup fr.1 row).getD Value.vNull) fr.2).2.1
            == Value.vNull)) = true
    · rw [if_pos hcond] at h
      simp at h
    · rw [if_neg hcond] at h ⊢
      rw [ih _ _ h]
      simp

/-- Every kept row comes from a completed per-row loop on some input row. -/
theorem mem_validated (eR : List (String × Rule)) (rows : List Row) (i : Nat) (r : Row)
    (hr : r ∈ (validateRows eR i rows).1) :
    ∃ row, (processRow row eR [] []).2.1 = none ∧ r = (processRow row eR [] []).2.2 := by
  induction rows generalizing i with
  | nil => simp [validateRows] at hr
  | cons row rest ih =>
    rw [validateRows] at hr
    cases hpr : (processRow row eR [] []).2.1 with
    | some d =>
      simp only [hpr] at hr
      exact ih (i + 1) hr
    | none =>
      simp only [hpr] at hr
      rcases List.mem_cons.mp hr with h | h
      · exact ⟨row, hpr, h⟩
      · exact ih (i + 1) h

/-- C4 amended: for every kept row, the validated output row consists of
exactly the ruled fields of the entity, in rule order; input fields with no
rule are omitted from the output. -/
theorem claim_C4_ruled_fields_only (rules : List (String × List (String × Rule)))
    (df : DFrame) (entity : String) (eR : List (String × Rule))
    (hlook : List.lookup entity rules = some eR)
    (hmr : (missingRequired eR df).isEmpty = true) :
    validate rules df entity = Except.ok (cleanOf eR df, reportOf eR df) ∧
    ∀ row ∈ (cleanOf eR df).rows, row.map Prod.fst = eR.map Prod.fst := by
  refine ⟨validate_ok_char rules df entity eR hlook hmr, ?_⟩
  intro row hrow
  have hmem : row ∈ (validateRows eR 0 df.rows).1 := by
    unfold cleanOf at hrow
    by_cases hemp : (validateRows eR 0 df.rows).1.isEmpty
    · rw [if_pos hemp] at hrow
      simp at hrow
    · rw [if_neg hemp] at hrow
      exact hrow
  obtain ⟨src, hnone, heq⟩ := mem_validated eR df.rows 0 row hmem
  rw [heq]
  have h := processRow_keys src eR [] [] hnone
  simpa using h

/-- Witness for the amended C4 on the concrete unruled-extra batch. -/
theorem claim_C4_witness :
    validate rulesPass dfPass "users" =
      Except.ok (cleanOf rulesPassUsers dfPass, reportOf rulesPassUsers dfPass) ∧
    [("a", Value.vStr "x")].map Prod.fst = rulesPassUsers.map Prod.fst := by
  have h := claim_C4_ruled_fields_only rulesPass dfPass "users" rulesPassUsers rfl rfl
  exact ⟨h.1, h.2 [("a", Value.vStr "x")] (by decide)⟩

/-- A completed per-row loop collects exactly the spec-side failed field
names, appended to the incoming accumulator. -/
theorem processRow_inv (row : Row) (fields : List (String × Rule)) (acc : Row)
    (inv : List String) (h : (processRow row fields acc inv).2.1 = none) :
    (processRow row fields acc inv).1 = inv ++ failNames row fields := by
  induction fields generalizing acc inv with
  | nil => simp [processRow, failNames]
  | cons fr rest ih =>
    rw [processRow] at h ⊢
    rw [failNames]
    by_cases hcond : (fr.2.required &&
        (!(validate_value ((List.lookup fr.1 row).getD Value.vNull) fr.2).1 ||
          (validate_value ((List.lookup fr.1 row).getD Value.vNull) fr.2).2.1
            == Value.vNull)) = true
    · rw [if_pos hcond] at h
      simp at h
    · rw [if_neg hcond] at h ⊢
      by_cases hres : (validate_value ((List.lookup fr.1 row).getD Value.vNull) fr.2).1 = true
      · rw [if_pos hres] at h ⊢
        rw [ih _ _ h, if_pos hres]
      · rw [if_neg hres] at h ⊢
        rw [ih _ _ h, if_neg hres]
        simp

/-- When no row is dropped, every row's per-row loop completed. -/
theorem validateRows_nodrop (eR : List (String × Rule)) (rows : List Row) (i : Nat)
    (h : (validateRows eR i rows).2.1 = []) :
    ∀ row ∈ rows, (processRow row eR [] []).2.1 = none := by
  induction rows generalizing i with
  | nil => intro row hr; simp at hr
  | cons row rest ih =>
    rw [validateRows] at h
    intro r hr
    cases hpr : (processRow row eR [] []).2.1 with
    | some d =>
      rw [hpr] at h
      simp at h
    | none =>
      rw [hpr] at h
      rcases List.mem_cons.mp hr with he | he
      · rw [he]
        exact hpr
      · exact ih (i + 1) h r he

/-- The invalid-field occurrences are the concatenation of the per-row
collections, in row order. -/
theorem validateRows_invs (eR : List (String × Rule)) (rows : List Row) (i : Nat) :
    (validateRows eR i rows).2.2 = rows.flatMap (fun row => (processRow row eR [] []).1) := by
  induction rows generalizing i with
  | nil => rfl
  | cons row rest ih =>
    rw [validateRows, List.flatMap_cons]
    cases hpr : (processRow row eR [] []).2.1 with
    | some d =>
      simp only [hpr]
      rw [ih (i + 1)]
    | none =>
      simp only [hpr]
      rw [ih (i + 1)]

/-- Failed names are ruled field names. -/
theorem failNames_sub (row : Row) (fields : List (String × Rule)) (f : String)
    (hf : f ∈ failNames row fields) : f ∈ fields.map Prod.fst := by
  induction fields with
  | nil => simp [failNames] at hf
  | cons fr rest ih =>
    rw [failNames] at hf
    by_cases hres : (validate_value ((List.lookup fr.1 row).getD Value.vNull) fr.2).1 = true
    · rw [if_pos hres] at hf
      exact List.mem_cons_of_mem _ (ih hf)
    · rw [if_neg hres] at hf
      rcases List.mem_cons.mp hf with he | he
      · rw [he]
        exact List.mem_cons_self _ _
      · exact List.mem_cons_of_mem _ (ih he)

/-- With distinct rule fields, a row contributes one occurrence of field f
exactly when f's own check fails on it. -/
theorem failNames_count (row : Row) (fields : List (String × Rule)) (f : String) (rule : Rule)
    (hnodup : (fields.map Prod.fst).Nodup) (hf : (f, rule) ∈ fields) :
    (failNames row fields).count f =
      (if (validate_value ((List.lookup f row).getD Value.vNull) rule).1 then 0 else 1) := by
  induction fields with
  | nil => simp at hf
  | cons fr rest ih =>
    have hnodup2 : (rest.map Prod.fst).Nodup := by
      rw [List.map_cons] at hnodup
      exact (List.nodup_cons.mp hnodup).2
    have hnotin : fr.1 ∉ rest.map Prod.fst := by
      rw [List.map_cons] at hnodup
      exact (List.nodup_cons.mp hnodup).1
    rcases List.mem_cons.mp hf with he | he
    · have hfst : f = fr.1 := by
        rw [← he]
      have hsnd : rule = fr.2 := by
        rw [← he]
      subst hfst
      subst hsnd
      have hzero : (failNames row rest).count fr.1 = 0 := by
        apply List.count_eq_zero.mpr
        intro hmem
        exact hnotin (failNames_sub row rest fr.1 hmem)
      rw [failNames]
      by_cases hres : (validate_value ((List.lookup fr.1 row).getD Value.vNull) fr.2).1 = true
      · rw [if_pos hres, if_pos hres]
        exact hzero
      · rw [if_neg hres, if_neg hres]
        rw [List.count_cons_self, hzero]
    · have hne : f ≠ fr.1 := by
        intro hcontra
        apply hnotin
        rw [← hcontra]
        exact List.mem_map.mpr ⟨(f, rule), he, rfl⟩
      rw [failNames]
      by_cases hres : (validate_value ((List.lookup fr.1 row).getD Value.vNull) fr.2).1 = true
      · rw [if_pos hres]
        exact ih hnodup2 he
      · rw [if_neg hres]
        rw [List.count_cons_of_ne hne]
        exact ih hnodup2 he

/-- Across kept rows, the number of collected occurrences of a ruled field f
equals the number of rows on which f's check fails. -/
theorem invs_count_eq_filter (eR : List (String × Rule)) (rows : List Row) (f : String)
    (rule : Rule) (hnodup : (eR.map Prod.fst).Nodup) (hf : (f, rule) ∈ eR)
    (hkept : ∀ row ∈ rows, (processRow row eR [] []).2.1 = none) :
    (rows.flatMap (fun row => (processRow row eR [] []).1)).count f =
      (rows.filter (fun row =>
        !(validate_value ((List.lookup f row).getD Value.vNull) rule).1)).length := by
  induction rows with
  | nil => rfl
  | cons row rest ih =>
    rw [List.flatMap_cons, List.count_append]
    have hnone := hkept row (List.mem_cons_self _ _)
    rw [processRow_inv row eR [] [] hnone]
    simp only [List.nil_append]
    rw [failNames_count row eR f rule hnodup hf]
    rw [List.filter_cons]
    by_cases hres : (validate_value ((List.lookup f row).getD Value.vNull) rule).1 = true
    · rw [if_pos hres]
      rw [if_neg (by simp [hres])]
      rw [ih (fun r hr => hkept r (List.mem_cons_of_mem _ hr))]
      simp
    · have hfalse : (validate_value ((List.lookup f row).getD Value.vNull) rule).1 = false := by
        cases hb : (validate_value ((List.lookup f row).getD Value.vNull) rule).1 with
        | false => rfl
        | true => exact absurd hb hres
      rw [if_neg hres]
      rw [if_pos (by simp [hfalse])]
      rw [List.length_cons, ih (fun r hr => hkept r (List.mem_cons_of_mem _ hr))]
      omega

/-- Looking up a key in an association list built keywise from the rules
yields the value at that key. -/
theorem lookup_map_key (eR : List (String × Rule)) (f : String) (g : String → Nat)
    (hf : f ∈ eR.map Prod.fst) :
    List.lookup f (eR.map (fun fr => (fr.1, g fr.1))) = some (g f) := by
  induction eR with
  | nil => simp at hf
  | cons fr rest ih =>
    rw [List.map_cons, List.lookup_cons]
    by_cases he : f = fr.1
    · have hb : (f == fr.1) = true := by
        rw [he]
        exact beq_self_eq_true fr.1
      rw [hb, he]
    · have hb : (f == fr.1) = false := by
        cases hc : f == fr.1 with
        | false => rfl
        | true => exact absurd (eq_of_beq hc) he
      rw [hb]
      apply ih
      rcases List.mem_map.mp hf with ⟨p, hp, hfst⟩
      rcases List.mem_cons.mp hp with hh | hh
      · exfalso
        apply he
        rw [← hfst, hh]
      · exact List.mem_map.mpr ⟨p, hh, hfst⟩

/-- Counterexample to C5: in the fixture row, user_id (required) fails, the
row is discarded and the loop stops, so the later field age is never
evaluated: its count stays 0 even though its check on that row's value
fails. -/
theorem claim_C5_cex :
    validate rulesG dfC5 "users" =
      Except.ok (cleanOf rulesGUsers dfC5, reportOf rulesGUsers dfC5) ∧
    (reportOf rulesGUsers dfC5).invalid_by_field = [("user_id", 1), ("age", 0)] ∧
    (validate_value (Value.vStr "xyz") ⟨some FieldType.int, false, none⟩).1 = false ∧
    (reportOf rulesGUsers dfC5).total_dropped_rows = 1 := by
  exact ⟨rfl, rfl, rfl, rfl⟩

/-- C5 amended: invalid_by_field counts the failed checks of the fields that
were actually evaluated; since evaluation of a row stops at its first
failing required field, the guarantee of one count per failing check holds
for batches in which no row is dropped: there, each ruled field's counter
equals the number of rows on which that field's own check fails. -/
theorem claim_C5_counts_evaluated (rules : List (String × List (String × Rule)))
    (df : DFrame) (entity : String) (eR : List (String × Rule))
    (hlook : List.lookup entity rules = some eR)
    (hmr : (missingRequired eR df).isEmpty = true)
    (hnodup : (eR.map Prod.fst).Nodup)
    (hnodrop : (reportOf eR df).total_dropped_rows = 0)
    (f : String) (rule : Rule) (hf : (f, rule) ∈ eR) :
    validate rules df entity = Except.ok (cleanOf eR df, reportOf eR df) ∧
    List.lookup f (reportOf eR df).invalid_by_field =
      some ((df.rows.filter (fun row =>
        !(validate_value ((List.lookup f row).getD Value.vNull) rule).1)).length) := by
  refine ⟨validate_ok_char rules df entity eR hlook hmr, ?_⟩
  have hlen : ((validateRows eR 0 df.rows).2.1).length = 0 := hnodrop
  have hdrop : (validateRows eR 0 df.rows).2.1 = [] := List.eq_nil_of_length_eq_zero hlen
  have hkept := validateRows_nodrop eR df.rows 0 hdrop
  have hmem : f ∈ eR.map Prod.fst := List.mem_map.mpr ⟨(f, rule), hf, rfl⟩
  have hl : List.lookup f
      (eR.map (fun fr => (fr.1, ((validateRows eR 0 df.rows).2.2).count fr.1))) =
      some (((validateRows eR 0 df.rows).2.2).count f) :=
    lookup_map_key eR f (fun x => ((validateRows eR 0 df.rows).2.2).count x) hmem
  show List.lookup f
      (eR.map (fun fr => (fr.1, ((validateRows eR 0 df.rows).2.2).count fr.1))) = _
  rw [hl]
  congr 1
  rw [validateRows_invs eR df.rows 0]
  exact invs_count_eq_filter eR df.rows f rule hnodup hf hkept

/-- Witness for the amended C5: a two-row batch with no drops, where the
optional int field fails on exactly one row and its counter is 1. -/
theorem claim_C5_witness :
    validate rulesSoft dfC5w "users" =
      Except.ok (cleanOf rulesSoftUsers dfC5w, reportOf rulesSoftUsers dfC5w) ∧
    List.lookup "age" (reportOf rulesSoftUsers dfC5w).invalid_by_field = some 1 := by
  have h := claim_C5_counts_evaluated rulesSoft dfC5w "users" rulesSoftUsers rfl rfl
    (by decide) rfl "age" ⟨some FieldType.int, false, none⟩ (by decide)
  refine ⟨h.1, ?_⟩
  rw [h.2]
  rfl

/-- C7: regex rules use Python re.match semantics — anchored at position 0
with partial match. For the rule pattern caret-A on an untyped string value:
the value passes exactly when its first character is A (so longer strings
starting with A pass, and a whole-string match is not required); concretely
Alpha and A pass and BAlpha fails. A date-typed value is rendered as
YYYY-MM-DD before matching. -/
theorem claim_C7_regex_prefix_semantics :
    (∀ s : String, ((validate_value (Value.vStr s) ruleCaretA).1 = true ↔
      s.data.head? = some 'A')) ∧
    (validate_value (Value.vStr "Alpha") ruleCaretA).1 = true ∧
    (validate_value (Value.vStr "A") ruleCaretA).1 = true ∧
    (validate_value (Value.vStr "BAlpha") ruleCaretA).1 = false ∧
    (validate_value (Value.vStr "2024-01-05")
      ⟨some FieldType.date, false, some (Regex.char '2')⟩).1 = true := by
  refine ⟨?_, by decide, by decide, by decide, by decide⟩
  intro s
  obtain ⟨data⟩ := s
  cases data with
  | nil => decide
  | cons c cs =>
    show (validate_value (Value.vStr (String.mk (c :: cs))) ruleCaretA).1 = true ↔ _
    by_cases hc : c = 'A'
    · subst hc
      simp [validate_value, ruleCaretA, checkRegex, re_match, runs, pyStr]
    · simp [validate_value, ruleCaretA, checkRegex, re_match, runs, pyStr, hc]
